import Mathlib

/-!
Verification of the secure execution boundary of the AI-Researcher repository.

The definitions below are a shallow embedding of `src/utils/validators.py` and
`src/utils/subprocess_utils.py`. Pure string validators become Lean functions
over `String` / `List Char`; effectful functions (process spawning, filesystem
probes) become functions parameterised by an explicit oracle (the outcome the
operating system would give each spawned process, booleans for filesystem
facts) that additionally return the list of observable side effects (`Event`s:
process spawns, directory creation, log lines).

Conventions kept throughout:
- Python `str.strip()` is modelled for ASCII whitespace (`pyStrip`); the
  repository only ever feeds ASCII identifiers, paths and URLs through these
  validators.
- Python exceptions become `Except` error values; each distinct raise site /
  message class of the source is a distinct constructor.
- Python regular expressions used by the source are total, backtracking-free
  character-class patterns and are embedded as direct character-class matchers.
-/

deriving instance DecidableEq for Except

namespace AIResearcher

/-! ## Basic string helpers (Python semantics) -/

/-- ASCII whitespace, as stripped by Python `str.strip()` on ASCII input. -/
def isPySpace (c : Char) : Bool :=
  c = ' ' || c = '\t' || c = '\n' || c = '\x0d' || c = '\x0b' || c = '\x0c'

/-- Python `str.strip()`: drop leading and trailing whitespace. -/
def pyStrip (s : List Char) : List Char :=
  ((s.dropWhile isPySpace).reverse.dropWhile isPySpace).reverse

/-- Python `needle in hay` substring containment. -/
def containsSub (needle : List Char) : List Char → Bool
  | [] => needle.isEmpty
  | c :: rest => needle.isPrefixOf (c :: rest) || containsSub needle rest

/-- Text before the first occurrence of `sep` (Python `s.split(sep)[0]`). -/
def beforeSub (sep : List Char) : List Char → List Char
  | [] => []
  | c :: rest => if sep.isPrefixOf (c :: rest) then [] else c :: beforeSub sep rest

/-- Python `str.lower()` (ASCII). -/
def lowerStr (s : List Char) : List Char := s.map Char.toLower

/-- Python `s.endswith(suffix)`. -/
def endsWithStr (suffix s : String) : Bool := suffix.data.isSuffixOf s.data

/-- Is an `Except` value an error? (a raised Python exception). -/
def isError {ε α : Type} : Except ε α → Bool
  | .error _ => true
  | .ok _ => false

/-! ## `validators.validate_identifier`

Embedding of `validate_identifier` from `src/utils/validators.py` (the `name`
argument, used only to format messages, is dropped). Each constructor of
`IdentErr` is one `raise ValidationError` site of the source, in source order. -/

/-- The raise sites of `validate_identifier`, in source order. -/
inductive IdentErr
  | emptyValue
  | tooLong (len maxLen : Nat)
  | invalidChars
  | pathTraversal
  | nullByte
  | shellMeta (found : List Char)
  deriving DecidableEq, Repr

/-- The blocked shell-metacharacter set `;&|`$(){}[]<>*?'"\` of the source
(`dangerous_chars` in `validate_identifier`). -/
def dangerousChars : List Char :=
  [';', '&', '|', '\x60', '$', '(', ')', '\x7b', '\x7d', '[', ']',
   '<', '>', '*', '?', '\'', '"', '\\']

/-- One character of the charset `[a-zA-Z0-9]` plus the opted-in characters,
as built by `validate_identifier` for its `re.match` whitelist. -/
def allowedChar (allow_dash allow_underscore allow_slash : Bool) (c : Char) : Bool :=
  c.isAlphanum || (allow_underscore && c = '_') || (allow_dash && c = '-')
    || (allow_slash && c = '/')

/-- Python `re.match('^[allowed]+$', v)` as a Bool, for the seven flag
combinations whose class text compiles (after `strip`, the trailing-newline
subtlety of `$` cannot arise). The eighth combination never reaches a match:
see `charsetPatternBad`. For each compiling combination the class members are
exactly `allowedChar` (a trailing `-`, or a `-` directly after the `0-9`
range, is a literal in Python's `re`). -/
def matchesCharset (allow_dash allow_underscore allow_slash : Bool) (s : List Char) : Bool :=
  !s.isEmpty && s.all (allowedChar allow_dash allow_underscore allow_slash)

/-- `validate_identifier` builds its class text as `a-zA-Z0-9` plus
underscore, dash and slash, appended in that order as the flags opt in. With
all three flags the text ends in underscore-dash-slash, a reversed character
range (0x5F down to 0x2F): Python's `re` rejects it at compile time with
`re.error` (bad character range), raised from the `re.match` call. This
predicate is true exactly for that one malformed combination. -/
def charsetPatternBad (allow_dash allow_underscore allow_slash : Bool) : Bool :=
  allow_underscore && allow_dash && allow_slash

/-- What a `validate_identifier` call raises: a `ValidationError` (one of the
`IdentErr` raise sites) or, for the malformed charset combination, the
`re.error` escaping the function uncaught (it is not a `ValueError`, so not a
`ValidationError`). -/
inductive IdentRaised
  | validation (e : IdentErr)
  | reError (msg : String)
  deriving DecidableEq, Repr

/-- `validate_identifier(value, name, max_length, allow_dash, allow_underscore,
allow_slash)` from `src/utils/validators.py`, checks in source order:
non-empty, strip, non-empty after strip, length, charset whitelist (whose
`re.match` call raises `re.error` for the malformed all-three-flags class,
see `charsetPatternBad`), `..`, NUL byte, blocked shell metacharacters;
returns the stripped value. -/
def validate_identifier (value : String) (max_length : Nat)
    (allow_dash allow_underscore allow_slash : Bool) : Except IdentRaised String :=
  if value.data.isEmpty then .error (.validation .emptyValue)
  else
    let v := pyStrip value.data
    if v.isEmpty then .error (.validation .emptyValue)
    else if max_length < v.length then .error (.validation (.tooLong v.length max_length))
    else if charsetPatternBad allow_dash allow_underscore allow_slash then
      .error (.reError "bad character range _-/")
    else if !matchesCharset allow_dash allow_underscore allow_slash v then
      .error (.validation .invalidChars)
    else if containsSub ['.', '.'] v then .error (.validation .pathTraversal)
    else if v.contains '\x00' then .error (.validation .nullByte)
    else
      let found := v.filter (fun c => dangerousChars.contains c)
      if found.isEmpty then .ok (String.mk v)
      else .error (.validation (.shellMeta found))

/-! ## `validators.validate_branch_name` -/

/-- The raise sites of `validate_branch_name`, in source order. -/
inductive BranchErr
  | emptyBranch
  | tooLong (len : Nat)
  | invalidChars
  | badStart
  | lockSuffix
  | dotdot
  deriving DecidableEq, Repr

/-- One character of the branch-name charset `[a-zA-Z0-9/_-]`. -/
def branchChar (c : Char) : Bool :=
  c.isAlphanum || c = '/' || c = '_' || c = '-'

/-- `validate_branch_name(branch)` from `src/utils/validators.py`:
non-empty (also after strip), strip, max 255, charset `[a-zA-Z0-9/_-]`,
must not start with `.` or `/`, must not end with `.lock`, no `..`;
returns the stripped value. -/
def validate_branch_name (branch : String) : Except BranchErr String :=
  if branch.data.isEmpty || (pyStrip branch.data).isEmpty then .error .emptyBranch
  else
    let b := pyStrip branch.data
    if 255 < b.length then .error (.tooLong b.length)
    else if !(!b.isEmpty && b.all branchChar) then .error .invalidChars
    else if b.head? = some '.' || b.head? = some '/' then .error .badStart
    else if ['.', 'l', 'o', 'c', 'k'].isSuffixOf b then .error .lockSuffix
    else if containsSub ['.', '.'] b then .error .dotdot
    else .ok (String.mk b)

/-! ## `validators.validate_path`

`validate_path` works on `pathlib.Path` values. A `Path` is embedded as a flag
(absolute?) plus its list of non-root components (`PyPath`); `Path.resolve()`
becomes purely lexical normalisation of `.` and `..` segments against an
explicit current working directory `cwd` (symbolic links, which `resolve()`
would also follow, are not modelled: the security argument of the source is
the lexical prefix check). The filesystem is an explicit existence oracle
`fs : List String → Bool` over canonical component lists. A canonical absolute
path is represented by its component list, e.g. `/app/papers/vq` is
`["app", "papers", "vq"]`. -/

/-- A `pathlib` path: absolute flag plus components. -/
structure PyPath where
  absolute : Bool
  components : List String
  deriving DecidableEq, Repr

/-- Split a character list on a separator character. -/
def splitOnChar (c : Char) : List Char → List (List Char)
  | [] => [[]]
  | x :: rest =>
    let r := splitOnChar c rest
    if x = c then [] :: r
    else
      match r with
      | [] => [[x]]
      | h :: t => (x :: h) :: t

/-- Parse a path string into a `PyPath` (pathlib collapses empty segments). -/
def parsePath (s : String) : PyPath :=
  ⟨s.data.head? = some '/',
   ((splitOnChar '/' s.data).filter (fun t => !t.isEmpty)).map String.mk⟩

/-- Lexically normalise an absolute component list: `.` is dropped, `..` pops
the previous component (at the root it stays at the root, as `resolve()` does).
`acc` is the reversed stack of components already emitted. -/
def normAbs (acc : List String) : List String → List String
  | [] => acc.reverse
  | c :: rest =>
    if c = "." then normAbs acc rest
    else if c = ".." then normAbs (acc.drop 1) rest
    else normAbs (c :: acc) rest

/-- `Path.resolve()`: make absolute against `cwd`, then normalise. -/
def resolvePath (cwd : List String) (p : PyPath) : List String :=
  normAbs [] (if p.absolute then p.components else cwd ++ p.components)

/-- The canonical base directory `Path(base_dir).resolve()` of `validate_path`. -/
def pathBase (cwd : List String) (base_dir : String) : List String :=
  resolvePath cwd (parsePath base_dir)

/-- The canonical target of `validate_path`: `Path(user_path).resolve()` when
`user_path` is absolute, `(base / user_path).resolve()` otherwise. -/
def pathTarget (cwd : List String) (user_path base_dir : String) : List String :=
  let up := parsePath user_path
  if up.absolute then resolvePath cwd up
  else normAbs [] (pathBase cwd base_dir ++ up.components)

/-- The raise sites of `validate_path`, in source order. -/
inductive PathErr
  | outsideBase (target base : List String)
  | doesNotExist (target : List String)
  deriving DecidableEq, Repr

/-- `validate_path(user_path, base_dir, must_exist)` from
`src/utils/validators.py`: resolve the target against the canonical base,
reject it unless the base is a prefix of it (`target.relative_to(base)`),
then reject a missing target when `must_exist` is set. -/
def validate_path (fs : List String → Bool) (cwd : List String)
    (user_path base_dir : String) (must_exist : Bool) :
    Except PathErr (List String) :=
  let base := pathBase cwd base_dir
  let target := pathTarget cwd user_path base_dir
  if !base.isPrefixOf target then .error (.outsideBase target base)
  else if must_exist && !fs target then .error (.doesNotExist target)
  else .ok target

/-! ## `validators.validate_url` -/

/-- The raise sites of `validate_url`, in source order. -/
inductive UrlErr
  | emptyUrl
  | invalidFormat
  | schemeNotAllowed (scheme : String)
  | localUrl
  deriving DecidableEq, Repr

/-- Domain character class `[a-zA-Z0-9.-]` of the URL pattern. -/
def urlDomainChar (c : Char) : Bool := c.isAlphanum || c = '.' || c = '-'

/-- Path character class of the URL pattern. -/
def urlPathChar (c : Char) : Bool :=
  c.isAlphanum ||
    ['.', '_', '~', ':', '/', '?', '#', '[', ']', '@', '!', '$', '&',
     '\'', '(', ')', '*', '+', ',', ';', '=', '-'].contains c

/-- The scheme alternatives `(https?|git)://` of the URL pattern. -/
def schemePrefixes : List (List Char) :=
  ["https://".data, "http://".data, "git://".data]

/-- Strip a matching scheme prefix, if any. -/
def stripSchemePrefix (s : List Char) : Option (List Char) :=
  match schemePrefixes.find? (fun p => p.isPrefixOf s) with
  | some p => some (s.drop p.length)
  | none => none

/-- The structural URL pattern
`^(https?|git)://[a-zA-Z0-9.-]+(/[path chars]*)?$` of `validate_url`. The
pattern needs no backtracking: `/` is not a domain character, so the greedy
domain run is exact. -/
def urlFormatOk (s : List Char) : Bool :=
  match stripSchemePrefix s with
  | none => false
  | some rest =>
    let dom := rest.takeWhile urlDomainChar
    let after := rest.drop dom.length
    !dom.isEmpty &&
      (after.isEmpty || (after.head? = some '/' && after.all urlPathChar))

/-- `validate_url(url, allowed_schemes)` from `src/utils/validators.py`:
default scheme allow-list `['https']`, strip, structural pattern check,
scheme allow-list check on `url.split('://')[0].lower()`, then rejection of
URLs containing `localhost` (case-insensitive) or `127.0.0.1`. -/
def validate_url (url : String) (allowed_schemes : Option (List String)) :
    Except UrlErr String :=
  let schemes := allowed_schemes.getD ["https"]
  if url.data.isEmpty || (pyStrip url.data).isEmpty then .error .emptyUrl
  else
    let u := pyStrip url.data
    if !urlFormatOk u then .error .invalidFormat
    else
      let scheme := String.mk (lowerStr (beforeSub "://".data u))
      if !schemes.contains scheme then .error (.schemeNotAllowed scheme)
      else if containsSub "localhost".data (lowerStr u)
          || containsSub "127.0.0.1".data u then .error .localUrl
      else .ok (String.mk u)

/-! ## `subprocess_utils.execute_command_safe`

Process execution is embedded with an explicit oracle: `ExecOutcome` is what
the operating system does with the (single) process a call spawns. Each
function returns the Python result (`Except` for raised exceptions) together
with the ordered list of observable side effects (`Event`s). A `spawn` event
records the exact argument vector handed to process creation and whether a
shell interprets it (`subprocess.run`'s `shell=` flag). -/

/-- What the OS does with one spawned process: normal completion with an exit
code and captured output, expiry of the timeout (`subprocess.TimeoutExpired`),
or any other OS-level error (`except Exception` branch of the source). -/
inductive ExecOutcome
  | completed (returncode : Int) (stdout stderr : String)
  | timedOut
  | osError (msg : String)
  deriving DecidableEq, Repr

/-- `subprocess.CompletedProcess` (the fields the source reads). -/
structure CompletedProcess where
  returncode : Int
  stdout : String
  stderr : String
  deriving DecidableEq, Repr

/-- The raise sites of `execute_command_safe`: the `ValueError` on a bad
command vector, and the three `CommandExecutionError` message classes. -/
inductive CmdError
  | invalidCommand
  | commandFailed (returncode : Int) (command stderr : String)
  | commandTimeout (timeout : Nat) (command : String)
  | unexpected (msg : String)
  deriving DecidableEq, Repr

/-- Observable side effects of the execution layer. -/
inductive Event
  | spawn (argv : List String) (useShell : Bool)
  | mkdirParents (dir : String)
  | logInfo (msg : String)
  | logWarning (msg : String)
  | logError (msg : String)
  deriving DecidableEq, Repr

/-- Characters `shlex.quote` leaves unquoted: alphanumerics, underscore and
the punctuation at-sign, percent, plus, equals, colon, comma, dot, slash,
dash. -/
def shlexSafeChar (c : Char) : Bool :=
  c.isAlphanum || c = '_' || ['@', '%', '+', '=', ':', ',', '.', '/', '-'].contains c

/-- A single quote character. -/
def squote : Char := '\''

/-- `shlex.quote(s)`: empty becomes a quoted empty string, safe strings pass
through, anything else is single-quoted with embedded quotes escaped. -/
def shlexQuote (s : String) : String :=
  if s.data.isEmpty then String.mk [squote, squote]
  else if s.data.all shlexSafeChar then s
  else
    String.mk ([squote] ++
      (s.data.foldr
        (fun c acc =>
          (if c = squote then [squote, '"', squote, '"', squote] else [c]) ++ acc)
        []) ++ [squote])

/-- `shlex.join(command)`: the readable, audit-only rendering of the vector. -/
def shlexJoin (command : List String) : String :=
  String.intercalate " " (command.map shlexQuote)

/-- `execute_command_safe(command, cwd, timeout, check, env, capture_output)`
from `src/utils/subprocess_utils.py`: reject an empty vector (`ValueError`),
log the `shlex.join`-rendered command, hand the vector itself to
`subprocess.run(..., shell=False)`, then either return the completed process,
raise `CommandExecutionError` for a checked non-zero exit
(`CalledProcessError`), for a timeout, or for any other exception. -/
def execute_command_safe (command : List String) (timeout : Nat) (check : Bool)
    (os : ExecOutcome) : Except CmdError CompletedProcess × List Event :=
  match command with
  | [] => (.error .invalidCommand, [])
  | c :: args =>
    let cmd := c :: args
    let safe_cmd := shlexJoin cmd
    let pre : List Event := [.logInfo ("Executing: " ++ safe_cmd), .spawn cmd false]
    match os with
    | .completed rc out err =>
      if check && rc != 0 then
        (.error (.commandFailed rc safe_cmd err),
         pre ++ [.logError ("Command failed with exit code " ++ toString rc)])
      else
        (.ok ⟨rc, out, err⟩,
         pre ++ [.logInfo ("Command completed with exit code " ++ toString rc)])
    | .timedOut =>
      (.error (.commandTimeout timeout safe_cmd),
       pre ++ [.logError ("Command timed out after " ++ toString timeout ++ "s")])
    | .osError m =>
      (.error (.unexpected m), pre ++ [.logError ("Unexpected error: " ++ m)])

/-- The spawn events of a trace: which argument vectors were handed to the OS,
and whether a shell interprets them. -/
def spawnEvents (evs : List Event) : List (List String × Bool) :=
  evs.filterMap (fun e =>
    match e with
    | .spawn argv sh => some (argv, sh)
    | _ => none)

/-! ## `subprocess_utils.git_clone_safe` -/

/-- The raise sites of `git_clone_safe` (validation errors propagate). -/
inductive GitErr
  | urlInvalid (e : UrlErr)
  | branchInvalid (e : BranchErr)
  | targetExists (dir : String)
  | exec (e : CmdError)
  deriving DecidableEq, Repr

/-- The `git clone` argument vector built by `git_clone_safe`. -/
def gitCloneCommand (vurl : String) (branch : Option String) (depth : Nat)
    (target_dir : String) : List String :=
  ["git", "clone"]
    ++ (match branch with | some b => ["--branch", b] | none => [])
    ++ (if 0 < depth then ["--depth", toString depth] else [])
    ++ [vurl, target_dir]

/-- `git_clone_safe(url, target_dir, branch, depth, timeout)` from
`src/utils/subprocess_utils.py`: validate the URL against `['https','git']`,
validate the branch when one is given (Python treats an empty string as no
branch), refuse an existing target directory, create its parent directories,
build the argument vector and execute it. `targetDirExists` is the filesystem
oracle for `target_dir.exists()`. -/
def git_clone_safe (os : ExecOutcome) (targetDirExists : Bool) (url target_dir : String)
    (branch : Option String) (depth : Nat) (timeout : Nat) :
    Except GitErr Unit × List Event :=
  match validate_url url (some ["https", "git"]) with
  | .error e => (.error (.urlInvalid e), [])
  | .ok vurl =>
    let vbranch : Except BranchErr (Option String) :=
      match branch with
      | none => .ok none
      | some b => if b.data.isEmpty then .ok none else (validate_branch_name b).map some
    match vbranch with
    | .error e => (.error (.branchInvalid e), [])
    | .ok vb =>
      if targetDirExists then (.error (.targetExists target_dir), [])
      else
        let er := execute_command_safe (gitCloneCommand vurl vb depth target_dir) timeout true os
        ((match er.1 with
          | .error e => .error (.exec e)
          | .ok _ => .ok ()),
         Event.mkdirParents target_dir :: er.2)

/-! ## `subprocess_utils.compile_latex_safe`

The multi-pass compilation is embedded with oracles for the facts the source
reads from its environment: `passOutcome i` is what the OS does with the
`pdflatex` process of pass `i` (0-based), `bibOutcome` the outcome of the one
possible `bibtex` process, `bibFilesExist` the result of
`project_dir.glob('*.bib')` being non-empty, `projectDirIsDir` / `texFileExists`
the precondition probes, and `pdfExists` whether `<base>.pdf` is present after
the final pass. -/

/-- The raise sites of `compile_latex_safe`: the precondition `ValueError`s,
a propagated `CommandExecutionError` from the execution layer, the
`pdflatex failed on run i` raise, and the missing-PDF raise. -/
inductive CompileErr
  | invalidInput (msg : String)
  | execError (e : CmdError)
  | latexFailed (run : Nat)
  | pdfNotCreated (path : String)
  deriving DecidableEq, Repr

/-- The message carried by the Python exception each `CompileErr` models
(`CommandExecutionError(...)` format strings of the source). -/
def compileErrMessage : CompileErr → String
  | .invalidInput m => m
  | .execError (.invalidCommand) => "Command must be a non-empty list"
  | .execError (.commandFailed rc cmd err) =>
      "Command failed with exit code " ++ toString rc ++ "\nCommand: " ++ cmd
        ++ "\nError: " ++ err
  | .execError (.commandTimeout t cmd) =>
      "Command timed out after " ++ toString t ++ "s\nCommand: " ++ cmd
  | .execError (.unexpected m) => "Unexpected error: " ++ m
  | .latexFailed run =>
      "pdflatex failed on run " ++ toString run ++ "\nSee output above for details"
  | .pdfNotCreated p =>
      "PDF file not created: " ++ p ++ "\nCheck LaTeX output for errors"

/-- The `pdflatex` argument vector of one pass: non-interactive mode,
shell-escape disabled, halt on error, then the filename. -/
def pdflatexArgs (tex_file : String) : List String :=
  ["pdflatex", "-interaction=nonstopmode", "-no-shell-escape", "-halt-on-error",
   tex_file]

/-- `tex_file[:-4]`: the base name without the `.tex` extension. -/
def texBaseName (tex_file : String) : String :=
  String.mk (tex_file.data.take (tex_file.data.length - 4))

/-- The best-effort `bibtex` step run after a successful first pass when a
`.bib` file exists: `execute_command_safe(['bibtex', base_name], check=False)`
inside `try/except`, any raised error swallowed into a warning log. Returns
only the trace; the step never contributes to the compile result. -/
def bibtexStep (bibOutcome : ExecOutcome) (bibFilesExist : Bool) (base_name : String) :
    List Event :=
  if bibFilesExist then
    let er := execute_command_safe ["bibtex", base_name] 30 false bibOutcome
    er.2 ++
      (match er.1 with
       | .error _ => [.logWarning "bibtex failed (continuing anyway)"]
       | .ok _ => [])
  else []

/-- The `for i in range(runs)` loop of `compile_latex_safe`, from pass index
`i` with `r` passes remaining: run `pdflatex` with `check=False`, propagate a
raised execution error, raise `latexFailed` immediately on a non-zero exit
(logging the captured stdout), run the `bibtex` step after pass 0 only, then
continue with the next pass. -/
def compileLoop (passOutcome : Nat → ExecOutcome) (bibOutcome : ExecOutcome)
    (bibFilesExist : Bool) (tex_file base_name : String) (timeout : Nat)
    (i r : Nat) : Except CompileErr Unit × List Event :=
  match r with
  | 0 => (.ok (), [])
  | r' + 1 =>
    let er := execute_command_safe (pdflatexArgs tex_file) timeout false (passOutcome i)
    match er.1 with
    | .error e => (.error (.execError e), er.2)
    | .ok cp =>
      if cp.returncode != 0 then
        (.error (.latexFailed (i + 1)),
         er.2 ++ [.logError ("pdflatex failed on run " ++ toString (i + 1)),
                  .logError ("Output:\n" ++ cp.stdout)])
      else
        let bibEv := if i = 0 then bibtexStep bibOutcome bibFilesExist base_name else []
        let rest := compileLoop passOutcome bibOutcome bibFilesExist tex_file base_name
          timeout (i + 1) r'
        (rest.1, er.2 ++ bibEv ++ rest.2)

/-- `compile_latex_safe(tex_file, project_dir, timeout, runs)` from
`src/utils/subprocess_utils.py`: check the filename ends in `.tex` and has no
path separator, check the project directory and the file exist, run the pass
loop, and finally require `<base>.pdf` to exist, returning its path. -/
def compile_latex_safe (passOutcome : Nat → ExecOutcome) (bibOutcome : ExecOutcome)
    (bibFilesExist projectDirIsDir texFileExists pdfExists : Bool)
    (tex_file project_dir : String) (timeout runs : Nat) :
    Except CompileErr String × List Event :=
  if !endsWithStr ".tex" tex_file then
    (.error (.invalidInput ("File must end with .tex: " ++ tex_file)), [])
  else if tex_file.data.contains '/' || tex_file.data.contains '\\' then
    (.error (.invalidInput ("tex_file must be filename only, not path: " ++ tex_file)), [])
  else if !projectDirIsDir then
    (.error (.invalidInput ("Project directory not found: " ++ project_dir)), [])
  else if !texFileExists then
    (.error (.invalidInput "TeX file not found"), [])
  else
    let base_name := texBaseName tex_file
    let pr := compileLoop passOutcome bibOutcome bibFilesExist tex_file base_name
      timeout 0 runs
    match pr.1 with
    | .error e => (.error e, pr.2)
    | .ok _ =>
      let pdf_path := project_dir ++ "/" ++ base_name ++ ".pdf"
      if !pdfExists then (.error (.pdfNotCreated pdf_path), pr.2)
      else (.ok pdf_path, pr.2 ++ [.logInfo ("LaTeX compilation successful: " ++ pdf_path)])

/-- Did this outcome come back as a zero exit? (`result.returncode == 0`
after a `check=False` execution). -/
def outcomeOk : ExecOutcome → Bool
  | .completed rc _ _ => rc == 0
  | _ => false

/-- The preconditions `compile_latex_safe` checks before any process runs. -/
def compilePreconds (tex_file : String) (projectDirIsDir texFileExists : Bool) : Bool :=
  endsWithStr ".tex" tex_file
    && !(tex_file.data.contains '/' || tex_file.data.contains '\\')
    && projectDirIsDir && texFileExists

/-- Is this event a `pdflatex` process spawn? -/
def isLatexSpawn : Event → Bool
  | .spawn argv _ => argv.head? = some "pdflatex"
  | _ => false

/-- Is this event a `bibtex` process spawn? -/
def isBibSpawn : Event → Bool
  | .spawn argv _ => argv.head? = some "bibtex"
  | _ => false

/-- How many `pdflatex` passes a trace ran. -/
def latexRuns (evs : List Event) : Nat := (evs.filter isLatexSpawn).length

/-- How many times a trace ran `bibtex`. -/
def bibRuns (evs : List Event) : Nat := (evs.filter isBibSpawn).length

/-! ## Supporting lemmas -/

theorem mem_dropWhile_of_mem {p : Char → Bool} {c : Char} (hc : p c = false) :
    ∀ {l : List Char}, c ∈ l → c ∈ l.dropWhile p := by
  intro l hl
  induction l with
  | nil => cases hl
  | cons a t ih =>
    rw [List.dropWhile_cons]
    by_cases hpa : p a = true
    · simp only [hpa, if_true]
      rcases List.mem_cons.mp hl with rfl | ht
      · rw [hc] at hpa; cases hpa
      · exact ih ht
    · simp only [Bool.not_eq_true] at hpa
      simp [hpa, hl]

theorem mem_pyStrip {c : Char} {s : List Char} (hmem : c ∈ s)
    (hsp : isPySpace c = false) : c ∈ pyStrip s := by
  unfold pyStrip
  rw [List.mem_reverse]
  apply mem_dropWhile_of_mem hsp
  rw [List.mem_reverse]
  exact mem_dropWhile_of_mem hsp hmem

theorem dangerous_char_props :
    ∀ c ∈ dangerousChars,
      isPySpace c = false ∧ ∀ d u sl : Bool, allowedChar d u sl c = false := by
  decide

/-! ## Claim theorems -/

/-- Supporting lemma for C2: for the seven flag combinations whose charset
class compiles, every input containing a blocked metacharacter makes
`validate_identifier` raise a `ValidationError`, whatever `max_length`. -/
theorem validate_identifier_rejects_metachars_wellformed :
    ∀ (value : String) (max_length : Nat) (d u sl : Bool),
      charsetPatternBad d u sl = false →
      value.data.any (fun c => dangerousChars.contains c) = true →
      ∃ e : IdentErr,
        validate_identifier value max_length d u sl = .error (.validation e) := by
  intro value ml d u sl hbad hany
  rw [List.any_eq_true] at hany
  obtain ⟨c, hmem, hdang⟩ := hany
  have hc : c ∈ dangerousChars := by simpa using hdang
  obtain ⟨hsp, hall⟩ := dangerous_char_props c hc
  have hstrip : c ∈ pyStrip value.data := mem_pyStrip hmem hsp
  unfold validate_identifier
  dsimp only
  split
  · exact ⟨_, rfl⟩
  · split
    · exact ⟨_, rfl⟩
    · split
      · exact ⟨_, rfl⟩
      · split
        · rename_i hbad2
          rw [hbad] at hbad2
          cases hbad2
        · split
          · exact ⟨_, rfl⟩
          · split
            · exact ⟨_, rfl⟩
            · split
              · exact ⟨_, rfl⟩
              · split
                · rename_i hne hlen hbad3 hchar hdots hnul hfound
                  exfalso
                  rw [List.isEmpty_iff] at hfound
                  have hmemf : c ∈ (pyStrip value.data).filter
                      (fun c => dangerousChars.contains c) := by
                    rw [List.mem_filter]
                    exact ⟨hstrip, by simpa using hc⟩
                  rw [hfound] at hmemf
                  cases hmemf
                · exact ⟨_, rfl⟩

/-- C2 (code bug): with `allow_underscore`, `allow_dash` and `allow_slash`
all true — the combination the documented use of `allow_slash` produces,
since dash and underscore default to true — the source builds the malformed
class ending in underscore-dash-slash and `re.match` raises `re.error` (bad
character range), which escapes `validate_identifier` uncaught (it is not a
`ValueError`, so not a `ValidationError`): the metachar input `a;b` raises
`re.error` instead of the promised `ValidationError`, and even the
docstring's own valid input `vq/rotation` crashes; under the default flags
the same metachar input still raises a `ValidationError`. -/
theorem validate_identifier_metachar_code_bug :
    validate_identifier "a;b" 50 true true true
        = .error (.reError "bad character range _-/") ∧
    validate_identifier "vq/rotation" 50 true true true
        = .error (.reError "bad character range _-/") ∧
    validate_identifier "a;b" 50 true true false
        = .error (.validation .invalidChars) :=
  ⟨by decide, by decide, by decide⟩

/-- C9: the shell-metacharacter veto of `validate_identifier` is redundant:
every character of the charset built from any flag combination lies outside
the blocked metacharacter set, so the `shellMeta` error branch is unreachable
(no input ever produces it; for the malformed all-three-flags combination
this holds vacuously, since the `re.error` raise precedes every later
check). -/
theorem validate_identifier_metachar_veto_redundant :
    (∀ (d u sl : Bool) (c : Char),
        allowedChar d u sl c = true → dangerousChars.contains c = false) ∧
    (∀ (value : String) (max_length : Nat) (d u sl : Bool) (found : List Char),
        validate_identifier value max_length d u sl
          ≠ .error (.validation (.shellMeta found))) := by
  constructor
  · intro d u sl c hall
    by_contra h
    rw [Bool.not_eq_false] at h
    have hc : c ∈ dangerousChars := by simpa using h
    have hx := (dangerous_char_props c hc).2 d u sl
    rw [hx] at hall
    cases hall
  · intro value ml d u sl found
    unfold validate_identifier
    dsimp only
    split
    · simp
    split
    · simp
    split
    · simp
    split
    · simp
    split
    · simp
    split
    · simp
    split
    · simp
    split
    · simp
    · rename_i hne1 hne2 hlen hbad hchar hdots hnul hfound
      exfalso
      apply hfound
      rw [List.isEmpty_iff, List.filter_eq_nil_iff]
      intro a ha
      rw [Bool.not_eq_true]
      have hcharset : matchesCharset d u sl (pyStrip value.data) = true := by
        cases hmc : matchesCharset d u sl (pyStrip value.data) with
        | false => exact absurd (by rw [hmc]; rfl) hchar
        | true => rfl
      rw [matchesCharset, Bool.and_eq_true] at hcharset
      have hache := (List.all_eq_true.mp hcharset.2) a ha
      by_contra hco
      rw [Bool.not_eq_false] at hco
      have hamem : a ∈ dangerousChars := by simpa using hco
      have := (dangerous_char_props a hamem).2 d u sl
      simp_all

/-- C9 witness: a charset character is never a metacharacter, and a concrete
call cannot produce the `shellMeta` error. -/
theorem validate_identifier_metachar_veto_redundant_witness :
    dangerousChars.contains 'a' = false ∧
    validate_identifier "vq" 50 true true false
      ≠ .error (.validation (.shellMeta [';'])) :=
  ⟨validate_identifier_metachar_veto_redundant.1 true true false 'a' (by decide),
   validate_identifier_metachar_veto_redundant.2 "vq" 50 true true false [';']⟩

/-- C10: `validate_identifier` and `validate_branch_name` return the input
with surrounding whitespace stripped (not the input verbatim): a
whitespace-surrounded input whose stripped form is valid is accepted and
mapped to a different string, and only an input that is empty or
whitespace-only is rejected for emptiness. -/
theorem validators_return_stripped :
    (∀ (value : String) (max_length : Nat) (d u sl : Bool) (r : String),
        validate_identifier value max_length d u sl = .ok r → r.data = pyStrip value.data) ∧
    (∀ (branch r : String),
        validate_branch_name branch = .ok r → r.data = pyStrip branch.data) ∧
    (validate_identifier "  vq  " 50 true true false = .ok "vq"
      ∧ ("vq" : String) ≠ "  vq  ") ∧
    (validate_branch_name " main " = .ok "main" ∧ ("main" : String) ≠ " main ") ∧
    (∀ (value : String) (max_length : Nat) (d u sl : Bool),
        validate_identifier value max_length d u sl
            = .error (.validation .emptyValue)
          ↔ pyStrip value.data = []) ∧
    (∀ branch : String,
        validate_branch_name branch = .error .emptyBranch ↔ pyStrip branch.data = []) := by
  refine ⟨?_, ?_, ⟨by decide, by decide⟩, ⟨by decide, by decide⟩, ?_, ?_⟩
  · intro value ml d u sl r h
    unfold validate_identifier at h
    dsimp only at h
    split at h
    · cases h
    split at h
    · cases h
    split at h
    · cases h
    split at h
    · cases h
    split at h
    · cases h
    split at h
    · cases h
    split at h
    · cases h
    split at h
    · injection h with h2
      rw [← h2]
    · cases h
  · intro branch r h
    unfold validate_branch_name at h
    dsimp only at h
    split at h
    · cases h
    split at h
    · cases h
    split at h
    · cases h
    split at h
    · cases h
    split at h
    · cases h
    split at h
    · cases h
    · injection h with h2
      rw [← h2]
  · intro value ml d u sl
    constructor
    · intro h
      unfold validate_identifier at h
      dsimp only at h
      split at h
      · rename_i hemp
        rw [List.isEmpty_iff] at hemp
        rw [hemp]
        rfl
      split at h
      · rename_i hemp2
        rwa [List.isEmpty_iff] at hemp2
      split at h
      · simp at h
      split at h
      · simp at h
      split at h
      · simp at h
      split at h
      · simp at h
      split at h
      · simp at h
      split at h
      · simp at h
      · simp at h
    · intro hstrip
      unfold validate_identifier
      dsimp only
      split
      · rfl
      split
      · rfl
      · rename_i hne h2
        exact absurd (by rw [hstrip]; rfl) h2
  · intro branch
    constructor
    · intro h
      unfold validate_branch_name at h
      dsimp only at h
      split at h
      · rename_i hemp
        rw [Bool.or_eq_true] at hemp
        rcases hemp with hx | hx
        · rw [List.isEmpty_iff] at hx
          rw [hx]
          rfl
        · rwa [List.isEmpty_iff] at hx
      split at h
      · simp at h
      split at h
      · simp at h
      split at h
      · simp at h
      split at h
      · simp at h
      split at h
      · simp at h
      · simp at h
    · intro hstrip
      have hx : (pyStrip branch.data).isEmpty = true := by rw [hstrip]; rfl
      unfold validate_branch_name
      dsimp only
      rw [hx, Bool.or_true]
      rfl

/-- C10 witness: the concrete whitespace-surrounded inputs map to their
stripped forms. -/
theorem validators_return_stripped_witness :
    ("vq" : String).data = pyStrip ("  vq  " : String).data ∧
    ("main" : String).data = pyStrip (" main " : String).data :=
  ⟨validators_return_stripped.1 "  vq  " 50 true true false "vq" (by decide),
   validators_return_stripped.2.1 " main " "main" (by decide)⟩

/-- C1: `execute_command_safe` hands the given ordered argument vector,
unmodified, directly to process creation with shell interpretation disabled:
every spawn of a call carries exactly the input vector with `useShell = false`
(and a non-empty vector is spawned exactly once); the `shlex.join`-rendered
string appears only in log events, never in a spawn. -/
theorem execute_command_safe_vector_exact :
    ∀ (command : List String) (timeout : Nat) (check : Bool) (os : ExecOutcome),
      (∀ p ∈ spawnEvents (execute_command_safe command timeout check os).2,
          p.1 = command ∧ p.2 = false) ∧
      (command ≠ [] →
        spawnEvents (execute_command_safe command timeout check os).2
          = [(command, false)]) := by
  intro cmd t ch os
  cases cmd with
  | nil =>
    constructor
    · intro p hp
      exact absurd hp (List.not_mem_nil p)
    · intro h
      exact absurd rfl h
  | cons c args =>
    have hspawn : spawnEvents (execute_command_safe (c :: args) t ch os).2
        = [(c :: args, false)] := by
      unfold execute_command_safe
      dsimp only
      cases os with
      | completed rc out err =>
        dsimp only
        by_cases hc : (ch && rc != 0) = true
        · rw [if_pos hc]
          rfl
        · rw [if_neg hc]
          rfl
      | timedOut => rfl
      | osError m => rfl
    constructor
    · intro p hp
      rw [hspawn] at hp
      have := List.mem_singleton.mp hp
      rw [this]
      exact ⟨rfl, rfl⟩
    · intro _
      exact hspawn

/-- C1 witness: a concrete `git clone` vector is spawned exactly as given,
with the shell disabled. -/
theorem execute_command_safe_vector_exact_witness :
    spawnEvents (execute_command_safe
        ["git", "clone", "https://github.com/a/b", "/tmp/repo"]
        300 true (.completed 0 "" "")).2
      = [(["git", "clone", "https://github.com/a/b", "/tmp/repo"], false)] :=
  (execute_command_safe_vector_exact
      ["git", "clone", "https://github.com/a/b", "/tmp/repo"]
      300 true (.completed 0 "" "")).2 (by decide)

/-- C6: for every URL, branch, depth and timeout, `git_clone_safe` into an
already-existing target directory raises before any side effect: its result is
an error and its trace is empty (no process spawned, no directory created). -/
theorem git_clone_existing_target_no_effects :
    ∀ (os : ExecOutcome) (url target_dir : String) (branch : Option String)
      (depth timeout : Nat),
      isError (git_clone_safe os true url target_dir branch depth timeout).1 = true ∧
      (git_clone_safe os true url target_dir branch depth timeout).2 = [] := by
  intro os url td branch depth t
  unfold git_clone_safe
  cases validate_url url (some ["https", "git"]) with
  | error e => exact ⟨rfl, rfl⟩
  | ok vurl =>
    dsimp only
    cases branch with
    | none => exact ⟨rfl, rfl⟩
    | some b =>
      dsimp only
      by_cases hb : b.data.isEmpty = true
      · rw [if_pos hb]
        exact ⟨rfl, rfl⟩
      · rw [if_neg hb]
        cases validate_branch_name b with
        | error e => exact ⟨rfl, rfl⟩
        | ok vb => exact ⟨rfl, rfl⟩

/-- C7: `validate_path` confines the canonical target to the canonical base:
it fails with the outside-base rejection whenever the base is not a prefix of
the resolved target, fails with the does-not-exist rejection when `must_exist`
is set and the target is absent, rejects `../../../etc/passwd` under base
`/app`, and maps `papers/vq` under `/app` to `/app/papers/vq`. -/
theorem validate_path_base_confinement :
    (∀ (fs : List String → Bool) (cwd : List String) (user_path base_dir : String)
        (must_exist : Bool),
        (pathBase cwd base_dir).isPrefixOf (pathTarget cwd user_path base_dir) = false →
        validate_path fs cwd user_path base_dir must_exist
          = .error (.outsideBase (pathTarget cwd user_path base_dir)
              (pathBase cwd base_dir))) ∧
    (∀ (fs : List String → Bool) (cwd : List String) (user_path base_dir : String),
        (pathBase cwd base_dir).isPrefixOf (pathTarget cwd user_path base_dir) = true →
        fs (pathTarget cwd user_path base_dir) = false →
        validate_path fs cwd user_path base_dir true
          = .error (.doesNotExist (pathTarget cwd user_path base_dir))) ∧
    (∀ (fs : List String → Bool) (cwd : List String) (must_exist : Bool),
        validate_path fs cwd "../../../etc/passwd" "/app" must_exist
          = .error (.outsideBase ["etc", "passwd"] ["app"])) ∧
    (∀ (fs : List String → Bool) (cwd : List String),
        validate_path fs cwd "papers/vq" "/app" false = .ok ["app", "papers", "vq"]) := by
  refine ⟨?_, ?_, fun _ _ _ => rfl, fun _ _ => rfl⟩
  · intro fs cwd up bd me hpre
    unfold validate_path
    dsimp only
    rw [hpre]
    rfl
  · intro fs cwd up bd hpre hfs
    unfold validate_path
    dsimp only
    rw [hpre, hfs]
    rfl

/-- C7 witness: with an absent filesystem, `papers/vq` under `/app` with
`must_exist` fails with the does-not-exist rejection. -/
theorem validate_path_base_confinement_witness :
    validate_path (fun _ => false) [] "papers/vq" "/app" true
      = .error (.doesNotExist ["app", "papers", "vq"]) :=
  validate_path_base_confinement.2.1 (fun _ => false) [] "papers/vq" "/app"
    (by decide) rfl

/-- C8 counterexample: `validate_url "file:///etc/passwd"` is rejected by the
structural URL pattern (invalid-format failure), not by the scheme allow-list
as the claim states: the scheme-not-allowed failure is never produced for it. -/
theorem validate_url_file_scheme_counterexample :
    validate_url "file:///etc/passwd" none = .error .invalidFormat ∧
    validate_url "file:///etc/passwd" none ≠ .error (.schemeNotAllowed "file") :=
  ⟨by decide, by decide⟩

/-- C8 (amended): under the default scheme allow-list, `validate_url` accepts
`https://github.com/a/b`, rejects `file:///etc/passwd` with the
invalid-URL-format failure (its grammar only admits `https`, `http`, `git`
schemes, so the scheme check is never reached), and rejects
`https://127.0.0.1/x` with the local-host-blocked failure. -/
theorem validate_url_default_scheme_behavior :
    validate_url "https://github.com/a/b" none = .ok "https://github.com/a/b" ∧
    validate_url "file:///etc/passwd" none = .error .invalidFormat ∧
    validate_url "https://127.0.0.1/x" none = .error .localUrl :=
  ⟨by decide, by decide, by decide⟩

/-- Pass counts are additive over trace concatenation. -/
theorem latexRuns_append (a b : List Event) :
    latexRuns (a ++ b) = latexRuns a + latexRuns b := by
  unfold latexRuns
  rw [List.filter_append, List.length_append]

/-- Bibliography-run counts are additive over trace concatenation. -/
theorem bibRuns_append (a b : List Event) :
    bibRuns (a ++ b) = bibRuns a + bibRuns b := by
  unfold bibRuns
  rw [List.filter_append, List.length_append]

/-- One `pdflatex` execution spawns exactly one `pdflatex` process and no
`bibtex` process, whatever the OS does with it. -/
theorem exec_pdflatex_counts (tf : String) (t : Nat) (ch : Bool) (os : ExecOutcome) :
    latexRuns (execute_command_safe (pdflatexArgs tf) t ch os).2 = 1 ∧
    bibRuns (execute_command_safe (pdflatexArgs tf) t ch os).2 = 0 := by
  unfold execute_command_safe pdflatexArgs
  dsimp only
  cases os with
  | completed rc out err =>
    dsimp only
    by_cases hc : (ch && rc != 0) = true
    · rw [if_pos hc]
      exact ⟨rfl, rfl⟩
    · rw [if_neg hc]
      exact ⟨rfl, rfl⟩
  | timedOut => exact ⟨rfl, rfl⟩
  | osError m => exact ⟨rfl, rfl⟩

/-- The bibliography step runs `bibtex` exactly once when a `.bib` file
exists, never otherwise, and never runs `pdflatex`. -/
theorem bibtexStep_counts (bo : ExecOutcome) (bf : Bool) (bn : String) :
    bibRuns (bibtexStep bo bf bn) = (if bf then 1 else 0) ∧
    latexRuns (bibtexStep bo bf bn) = 0 := by
  cases bf with
  | false => exact ⟨rfl, rfl⟩
  | true =>
    unfold bibtexStep
    dsimp only
    rw [if_pos rfl]
    unfold execute_command_safe
    dsimp only
    cases bo with
    | completed rc out err =>
      dsimp only
      by_cases hc : (false && rc != 0) = true
      · cases hc
      · rw [if_neg hc]
        exact ⟨rfl, rfl⟩
    | timedOut => exact ⟨rfl, rfl⟩
    | osError m => exact ⟨rfl, rfl⟩

/-- Equation: a `pdflatex` execution whose process completes. -/
theorem exec_pdflatex_completed (tf : String) (t : Nat) (rc : Int) (out err : String) :
    execute_command_safe (pdflatexArgs tf) t false (.completed rc out err)
      = (.ok ⟨rc, out, err⟩,
         [.logInfo ("Executing: " ++ shlexJoin (pdflatexArgs tf)),
          .spawn (pdflatexArgs tf) false,
          .logInfo ("Command completed with exit code " ++ toString rc)]) := rfl

/-- Equation: a `pdflatex` execution whose process times out. -/
theorem exec_pdflatex_timedOut (tf : String) (t : Nat) :
    execute_command_safe (pdflatexArgs tf) t false .timedOut
      = (.error (.commandTimeout t (shlexJoin (pdflatexArgs tf))),
         [.logInfo ("Executing: " ++ shlexJoin (pdflatexArgs tf)),
          .spawn (pdflatexArgs tf) false,
          .logError ("Command timed out after " ++ toString t ++ "s")]) := rfl

/-- Equation: a `pdflatex` execution hitting an OS-level error. -/
theorem exec_pdflatex_osError (tf : String) (t : Nat) (m : String) :
    execute_command_safe (pdflatexArgs tf) t false (.osError m)
      = (.error (.unexpected m),
         [.logInfo ("Executing: " ++ shlexJoin (pdflatexArgs tf)),
          .spawn (pdflatexArgs tf) false,
          .logError ("Unexpected error: " ++ m)]) := rfl

@[simp] theorem isBibSpawn_logInfo (m : String) : isBibSpawn (.logInfo m) = false := rfl

@[simp] theorem isBibSpawn_logWarning (m : String) : isBibSpawn (.logWarning m) = false := rfl

@[simp] theorem isBibSpawn_logError (m : String) : isBibSpawn (.logError m) = false := rfl

@[simp] theorem isBibSpawn_mkdir (d : String) : isBibSpawn (.mkdirParents d) = false := rfl

@[simp] theorem isLatexSpawn_logInfo (m : String) : isLatexSpawn (.logInfo m) = false := rfl

@[simp] theorem isLatexSpawn_logWarning (m : String) : isLatexSpawn (.logWarning m) = false := rfl

@[simp] theorem isLatexSpawn_logError (m : String) : isLatexSpawn (.logError m) = false := rfl

@[simp] theorem isLatexSpawn_mkdir (d : String) : isLatexSpawn (.mkdirParents d) = false := rfl

@[simp] theorem isBibSpawn_pdflatex (tf : String) (sh : Bool) :
    isBibSpawn (.spawn (pdflatexArgs tf) sh) = false := rfl

@[simp] theorem isLatexSpawn_pdflatex (tf : String) (sh : Bool) :
    isLatexSpawn (.spawn (pdflatexArgs tf) sh) = true := rfl

@[simp] theorem isBibSpawn_bibtex (bn : String) (sh : Bool) :
    isBibSpawn (.spawn ["bibtex", bn] sh) = true := rfl

@[simp] theorem isLatexSpawn_bibtex (bn : String) (sh : Bool) :
    isLatexSpawn (.spawn ["bibtex", bn] sh) = false := rfl

@[simp] theorem bibRuns_nil : bibRuns [] = 0 := rfl

@[simp] theorem latexRuns_nil : latexRuns [] = 0 := rfl

@[simp] theorem bibRuns_cons (e : Event) (evs : List Event) :
    bibRuns (e :: evs) = (if isBibSpawn e then 1 else 0) + bibRuns evs := by
  unfold bibRuns
  rw [List.filter_cons]
  split
  · rw [List.length_cons]
    omega
  · omega

@[simp] theorem latexRuns_cons (e : Event) (evs : List Event) :
    latexRuns (e :: evs) = (if isLatexSpawn e then 1 else 0) + latexRuns evs := by
  unfold latexRuns
  rw [List.filter_cons]
  split
  · rw [List.length_cons]
    omega
  · omega

/-- From any pass index past the first, the loop never runs `bibtex`. -/
theorem compileLoop_pos_bibRuns (po : Nat → ExecOutcome) (bo : ExecOutcome)
    (bf : Bool) (tf bn : String) (t : Nat) :
    ∀ (r i : Nat), i ≠ 0 → bibRuns (compileLoop po bo bf tf bn t i r).2 = 0 := by
  intro r
  induction r with
  | zero => intro i h; rfl
  | succ r' ih =>
    intro i h
    unfold compileLoop
    cases hpo : po i with
    | completed rc out err =>
      rw [exec_pdflatex_completed]
      dsimp only
      by_cases hrc : (rc != 0) = true
      · rw [if_pos hrc]
        simp [bibRuns_append]
      · rw [if_neg hrc]
        dsimp only
        rw [if_neg h]
        simp [bibRuns_append, ih (i + 1) (by omega)]
    | timedOut =>
      rw [exec_pdflatex_timedOut]
      simp
    | osError m =>
      rw [exec_pdflatex_osError]
      simp

/-- When every remaining pass exits zero the loop succeeds and runs exactly
`r` passes. -/
theorem compileLoop_ok (po : Nat → ExecOutcome) (bo : ExecOutcome)
    (bf : Bool) (tf bn : String) (t : Nat) :
    ∀ (r i : Nat), (∀ j, i ≤ j → j < i + r → outcomeOk (po j) = true) →
      (compileLoop po bo bf tf bn t i r).1 = .ok () ∧
      latexRuns (compileLoop po bo bf tf bn t i r).2 = r := by
  intro r
  induction r with
  | zero => intro i h; exact ⟨rfl, rfl⟩
  | succ r' ih =>
    intro i h
    have hi : outcomeOk (po i) = true := h i le_rfl (by omega)
    unfold compileLoop
    cases hpo : po i with
    | completed rc out err =>
      rw [hpo] at hi
      have hrc : rc = 0 := by simpa [outcomeOk] using hi
      subst hrc
      rw [exec_pdflatex_completed]
      dsimp only
      rw [if_neg (by decide)]
      have hrest := ih (i + 1) (fun j h1 h2 => h j (by omega) (by omega))
      refine ⟨hrest.1, ?_⟩
      dsimp only
      have hbib : latexRuns (if i = 0 then bibtexStep bo bf bn else []) = 0 := by
        split
        · exact (bibtexStep_counts bo bf bn).2
        · rfl
      simp [latexRuns_append, hbib, hrest.2]
      omega
    | timedOut =>
      rw [hpo] at hi
      cases hi
    | osError m =>
      rw [hpo] at hi
      cases hi

/-- When pass `f` is the first to exit non-zero, the loop fails with
`latexFailed (f+1)`, runs no pass after `f`, and logs the captured stdout of
the failing pass at error level. -/
theorem compileLoop_fail (po : Nat → ExecOutcome) (bo : ExecOutcome)
    (bf : Bool) (tf bn : String) (t : Nat) (f : Nat) (rc : Int) (out err : String)
    (hf : po f = .completed rc out err) (hrc : rc ≠ 0) :
    ∀ (r i : Nat), i ≤ f → f < i + r →
      (∀ j, i ≤ j → j < f → outcomeOk (po j) = true) →
      (compileLoop po bo bf tf bn t i r).1 = .error (.latexFailed (f + 1)) ∧
      latexRuns (compileLoop po bo bf tf bn t i r).2 = f + 1 - i ∧
      Event.logError ("Output:\n" ++ out) ∈ (compileLoop po bo bf tf bn t i r).2 := by
  intro r
  induction r with
  | zero => intro i h1 h2 h3; omega
  | succ r' ih =>
    intro i hif hfr h
    by_cases hie : i = f
    · subst hie
      unfold compileLoop
      rw [hf, exec_pdflatex_completed]
      dsimp only
      rw [if_pos (by simpa using hrc)]
      refine ⟨rfl, ?_, ?_⟩
      · simp [latexRuns_append]
      · simp
    · have hilt : i < f := by omega
      have hi : outcomeOk (po i) = true := h i le_rfl hilt
      unfold compileLoop
      cases hpo : po i with
      | completed rc2 out2 err2 =>
        rw [hpo] at hi
        have hrc2 : rc2 = 0 := by simpa [outcomeOk] using hi
        subst hrc2
        rw [exec_pdflatex_completed]
        dsimp only
        rw [if_neg (by decide)]
        have hrest := ih (i + 1) (by omega) (by omega)
          (fun j h1 h2 => h j (by omega) h2)
        refine ⟨hrest.1, ?_, ?_⟩
        · dsimp only
          have hbib : latexRuns (if i = 0 then bibtexStep bo bf bn else []) = 0 := by
            split
            · exact (bibtexStep_counts bo bf bn).2
            · rfl
          simp [latexRuns_append, hbib, hrest.2.1]
          omega
        · dsimp only
          rw [List.mem_append]
          right
          exact hrest.2.2
      | timedOut =>
        rw [hpo] at hi
        cases hi
      | osError m =>
        rw [hpo] at hi
        cases hi

/-- Exact `bibtex` count of a full loop: one run exactly when there is at
least one pass, the first pass exits zero, and a `.bib` file exists. -/
theorem compileLoop_zero_bibRuns (po : Nat → ExecOutcome) (bo : ExecOutcome)
    (bf : Bool) (tf bn : String) (t : Nat) (r : Nat) :
    bibRuns (compileLoop po bo bf tf bn t 0 r).2
      = if 0 < r && outcomeOk (po 0) && bf then 1 else 0 := by
  cases r with
  | zero => rfl
  | succ r' =>
    unfold compileLoop
    cases hpo : po 0 with
    | completed rc out err =>
      rw [exec_pdflatex_completed]
      dsimp only
      by_cases hrc : (rc != 0) = true
      · rw [if_pos hrc]
        have hok : outcomeOk (ExecOutcome.completed rc out err) = false := by
          simp only [outcomeOk]
          simpa using hrc
        simp [hok]
      · rw [if_neg hrc]
        dsimp only
        rw [if_pos rfl]
        have hok : outcomeOk (ExecOutcome.completed rc out err) = true := by
          simp only [outcomeOk]
          simpa using hrc
        have htail := compileLoop_pos_bibRuns po bo bf tf bn t r' 1 one_ne_zero
        have hstep := (bibtexStep_counts bo bf bn).1
        simp [bibRuns_append, htail, hstep, hok]
    | timedOut =>
      rw [exec_pdflatex_timedOut]
      simp [outcomeOk]
    | osError m =>
      rw [exec_pdflatex_osError]
      simp [outcomeOk]

/-- The loop result and its `pdflatex` pass count do not depend on what the
OS does with the `bibtex` process. -/
theorem compileLoop_bib_independent (po : Nat → ExecOutcome)
    (bf : Bool) (tf bn : String) (t : Nat) :
    ∀ (r i : Nat) (b1 b2 : ExecOutcome),
      (compileLoop po b1 bf tf bn t i r).1 = (compileLoop po b2 bf tf bn t i r).1 ∧
      latexRuns (compileLoop po b1 bf tf bn t i r).2
        = latexRuns (compileLoop po b2 bf tf bn t i r).2 := by
  intro r
  induction r with
  | zero => intro i b1 b2; exact ⟨rfl, rfl⟩
  | succ r' ih =>
    intro i b1 b2
    unfold compileLoop
    cases hpo : po i with
    | completed rc out err =>
      rw [exec_pdflatex_completed]
      dsimp only
      by_cases hrc : (rc != 0) = true
      · simp only [if_pos hrc]
        exact ⟨trivial, trivial⟩
      · have heq : rc = 0 := by simpa using hrc
        subst heq
        simp only [if_neg hrc]
        have hrest := ih (i + 1) b1 b2
        refine ⟨hrest.1, ?_⟩
        have hb1 : latexRuns (if i = 0 then bibtexStep b1 bf bn else []) = 0 := by
          split
          · exact (bibtexStep_counts b1 bf bn).2
          · rfl
        have hb2 : latexRuns (if i = 0 then bibtexStep b2 bf bn else []) = 0 := by
          split
          · exact (bibtexStep_counts b2 bf bn).2
          · rfl
        simp [latexRuns_append, hb1, hb2, hrest.2]
    | timedOut =>
      rw [exec_pdflatex_timedOut]
      exact ⟨rfl, rfl⟩
    | osError m =>
      rw [exec_pdflatex_osError]
      exact ⟨rfl, rfl⟩

/-- When the first pass exits zero, the trace starts with the first pass
followed immediately by the bibliography step, and no `bibtex` process is
spawned afterwards. -/
theorem compileLoop_shape (po : Nat → ExecOutcome) (bo : ExecOutcome)
    (bf : Bool) (tf bn : String) (t : Nat) (r' : Nat)
    (h : outcomeOk (po 0) = true) :
    ∃ rest, (compileLoop po bo bf tf bn t 0 (r' + 1)).2
        = (execute_command_safe (pdflatexArgs tf) t false (po 0)).2
          ++ bibtexStep bo bf bn ++ rest ∧
      bibRuns rest = 0 := by
  unfold compileLoop
  cases hpo : po 0 with
  | completed rc out err =>
    rw [hpo] at h
    have hrc : rc = 0 := by simpa [outcomeOk] using h
    subst hrc
    rw [exec_pdflatex_completed]
    dsimp only
    rw [if_neg (by decide), if_pos rfl]
    refine ⟨(compileLoop po bo bf tf bn t 1 r').2, ?_, ?_⟩
    · rw [List.append_assoc]
    · exact compileLoop_pos_bibRuns po bo bf tf bn t r' 1 one_ne_zero
  | timedOut =>
    rw [hpo] at h
    cases h
  | osError m =>
    rw [hpo] at h
    cases h

/-- Equation: `compile_latex_safe` under satisfied preconditions is the pass
loop followed by the PDF existence check. -/
theorem compile_latex_safe_eq (po : Nat → ExecOutcome) (bo : ExecOutcome)
    (bf pdf : Bool) (tf pd : String) (t r : Nat)
    (h1 : endsWithStr ".tex" tf = true)
    (h2 : (tf.data.contains '/' || tf.data.contains '\\') = false) :
    compile_latex_safe po bo bf true true pdf tf pd t r
      = (match (compileLoop po bo bf tf (texBaseName tf) t 0 r).1 with
         | .error e => (.error e, (compileLoop po bo bf tf (texBaseName tf) t 0 r).2)
         | .ok _ =>
           if !pdf then
             (.error (.pdfNotCreated (pd ++ "/" ++ texBaseName tf ++ ".pdf")),
              (compileLoop po bo bf tf (texBaseName tf) t 0 r).2)
           else
             (.ok (pd ++ "/" ++ texBaseName tf ++ ".pdf"),
              (compileLoop po bo bf tf (texBaseName tf) t 0 r).2
                ++ [.logInfo ("LaTeX compilation successful: "
                      ++ (pd ++ "/" ++ texBaseName tf ++ ".pdf"))])) := by
  unfold compile_latex_safe
  rw [h1, h2]
  rw [if_neg (by decide), if_neg (by decide), if_neg (by decide), if_neg (by decide)]

/-- Decompose the precondition conjunction of `compile_latex_safe`. -/
theorem precond_components {tf : String} {pdir texex : Bool}
    (hpre : compilePreconds tf pdir texex = true) :
    endsWithStr ".tex" tf = true
      ∧ (tf.data.contains '/' || tf.data.contains '\\') = false
      ∧ pdir = true ∧ texex = true := by
  unfold compilePreconds at hpre
  rw [Bool.and_eq_true, Bool.and_eq_true, Bool.and_eq_true] at hpre
  obtain ⟨⟨⟨h1, h2⟩, h3⟩, h4⟩ := hpre
  exact ⟨h1, by simpa using h2, h3, h4⟩

/-- C5: when the preconditions hold and every pass exits zero, the compile
fails with the distinct `pdfNotCreated` error exactly when `<base>.pdf` is
absent after the final pass, and returns the artifact path when it exists;
`pdfNotCreated` is distinguishable from the command-failure and timeout
errors. -/
theorem compile_pdf_postcondition :
    ∀ (po : Nat → ExecOutcome) (bo : ExecOutcome) (bf pdir texex : Bool)
      (tf pd : String) (t r : Nat),
      compilePreconds tf pdir texex = true →
      (∀ j, j < r → outcomeOk (po j) = true) →
      (compile_latex_safe po bo bf pdir texex false tf pd t r).1
          = .error (.pdfNotCreated (pd ++ "/" ++ texBaseName tf ++ ".pdf")) ∧
      (compile_latex_safe po bo bf pdir texex true tf pd t r).1
          = .ok (pd ++ "/" ++ texBaseName tf ++ ".pdf") ∧
      (∀ e : CmdError,
          CompileErr.pdfNotCreated (pd ++ "/" ++ texBaseName tf ++ ".pdf")
            ≠ .execError e) ∧
      (∀ n : Nat,
          CompileErr.pdfNotCreated (pd ++ "/" ++ texBaseName tf ++ ".pdf")
            ≠ .latexFailed n) := by
  intro po bo bf pdir texex tf pd t r hpre hok
  obtain ⟨h1, h2, h3, h4⟩ := precond_components hpre
  subst h3
  subst h4
  have hloop := compileLoop_ok po bo bf tf (texBaseName tf) t r 0
    (fun j _ hj => hok j (by omega))
  rw [compile_latex_safe_eq po bo bf false tf pd t r h1 h2]
  rw [compile_latex_safe_eq po bo bf true tf pd t r h1 h2]
  rw [hloop.1]
  refine ⟨rfl, rfl, ?_, ?_⟩
  · intro e h
    cases h
  · intro n h
    cases h

/-- C3 (amended): if pass `f` is the first to exit non-zero, the compile
fails immediately with `latexFailed (f+1)`: no pass after `f` runs, the
bibliography tool never runs after the failing pass (on a first-pass failure
it never runs at all; on a later failure all bibliography activity sits
directly after the first pass), and the captured stdout of the failing pass
is surfaced in the error log, while the raised error message itself only
names the failing run. -/
theorem compile_fails_fast_on_pass_failure :
    ∀ (po : Nat → ExecOutcome) (bo : ExecOutcome) (bf pdir texex pdf : Bool)
      (tf pd : String) (t r f : Nat) (rc : Int) (out err : String),
      compilePreconds tf pdir texex = true →
      f < r →
      (∀ j, j < f → outcomeOk (po j) = true) →
      po f = .completed rc out err →
      rc ≠ 0 →
      (compile_latex_safe po bo bf pdir texex pdf tf pd t r).1
          = .error (.latexFailed (f + 1)) ∧
      latexRuns (compile_latex_safe po bo bf pdir texex pdf tf pd t r).2 = f + 1 ∧
      (f = 0 → bibRuns (compile_latex_safe po bo bf pdir texex pdf tf pd t r).2 = 0) ∧
      (0 < f → ∃ rest,
        (compile_latex_safe po bo bf pdir texex pdf tf pd t r).2
            = (execute_command_safe (pdflatexArgs tf) t false (po 0)).2
              ++ bibtexStep bo bf (texBaseName tf) ++ rest ∧
          bibRuns rest = 0) ∧
      Event.logError ("Output:\n" ++ out)
          ∈ (compile_latex_safe po bo bf pdir texex pdf tf pd t r).2 := by
  intro po bo bf pdir texex pdf tf pd t r f rc out err hpre hfr hok hpo hrc
  obtain ⟨h1, h2, h3, h4⟩ := precond_components hpre
  subst h3
  subst h4
  have hfail := compileLoop_fail po bo bf tf (texBaseName tf) t f rc out err hpo hrc
    r 0 (by omega) (by omega) (fun j _ hj => hok j hj)
  rw [compile_latex_safe_eq po bo bf pdf tf pd t r h1 h2]
  rw [hfail.1]
  refine ⟨rfl, ?_, ?_, ?_, ?_⟩
  · have := hfail.2.1
    simpa using this
  · intro hf0
    subst hf0
    have hout : outcomeOk (po 0) = false := by
      rw [hpo]
      simpa [outcomeOk] using hrc
    rw [compileLoop_zero_bibRuns]
    simp [hout]
  · intro hfpos
    cases r with
    | zero => omega
    | succ r' =>
      exact compileLoop_shape po bo bf tf (texBaseName tf) t r' (hok 0 hfpos)
  · exact hfail.2.2

/-- C4: during one compile the result and the number of passes do not depend
on the bibliography outcome (its failure is swallowed), `bibtex` runs exactly
once precisely when there is at least one pass, the first pass exits zero and
a `.bib` file exists, and the single run sits immediately after the first
pass with no `bibtex` spawn later in the trace. -/
theorem compile_bibtex_once_best_effort :
    ∀ (po : Nat → ExecOutcome) (b1 b2 : ExecOutcome) (bf pdir texex pdf : Bool)
      (tf pd : String) (t r : Nat),
      compilePreconds tf pdir texex = true →
      ((compile_latex_safe po b1 bf pdir texex pdf tf pd t r).1
          = (compile_latex_safe po b2 bf pdir texex pdf tf pd t r).1) ∧
      (latexRuns (compile_latex_safe po b1 bf pdir texex pdf tf pd t r).2
          = latexRuns (compile_latex_safe po b2 bf pdir texex pdf tf pd t r).2) ∧
      (bibRuns (compile_latex_safe po b1 bf pdir texex pdf tf pd t r).2
          = if 0 < r && outcomeOk (po 0) && bf then 1 else 0) ∧
      (outcomeOk (po 0) = true → 0 < r →
        ∃ rest,
          (compile_latex_safe po b1 bf pdir texex pdf tf pd t r).2
              = (execute_command_safe (pdflatexArgs tf) t false (po 0)).2
                ++ bibtexStep b1 bf (texBaseName tf) ++ rest ∧
            bibRuns rest = 0) := by
  intro po b1 b2 bf pdir texex pdf tf pd t r hpre
  obtain ⟨h1, h2, h3, h4⟩ := precond_components hpre
  subst h3
  subst h4
  have hind := compileLoop_bib_independent po bf tf (texBaseName tf) t r 0 b1 b2
  rw [compile_latex_safe_eq po b1 bf pdf tf pd t r h1 h2]
  rw [compile_latex_safe_eq po b2 bf pdf tf pd t r h1 h2]
  have hbib1 := compileLoop_zero_bibRuns po b1 bf tf (texBaseName tf) t r
  refine ⟨?_, ?_, ?_, ?_⟩
  · rw [← hind.1]
    cases hc : (compileLoop po b1 bf tf (texBaseName tf) t 0 r).1 with
    | error e => rfl
    | ok u =>
      cases pdf with
      | false => rfl
      | true => rfl
  · rw [← hind.1]
    cases hc : (compileLoop po b1 bf tf (texBaseName tf) t 0 r).1 with
    | error e => exact hind.2
    | ok u =>
      cases pdf with
      | false => exact hind.2
      | true =>
        simp only [Bool.not_true, Bool.false_eq_true, if_false]
        rw [latexRuns_append, latexRuns_append, hind.2]
  · cases hc : (compileLoop po b1 bf tf (texBaseName tf) t 0 r).1 with
    | error e => exact hbib1
    | ok u =>
      cases pdf with
      | false => exact hbib1
      | true =>
        simp only [Bool.not_true, Bool.false_eq_true, if_false]
        rw [bibRuns_append, hbib1]
        simp
  · intro hok0 hr0
    cases r with
    | zero => omega
    | succ r' =>
      obtain ⟨rest0, hshape, hrest0⟩ :=
        compileLoop_shape po b1 bf tf (texBaseName tf) t r' hok0
      cases hc : (compileLoop po b1 bf tf (texBaseName tf) t 0 (r' + 1)).1 with
      | error e => exact ⟨rest0, hshape, hrest0⟩
      | ok u =>
        cases pdf with
        | false => exact ⟨rest0, hshape, hrest0⟩
        | true =>
          simp only [Bool.not_true, Bool.false_eq_true, if_false]
          refine ⟨rest0 ++ [.logInfo ("LaTeX compilation successful: "
              ++ (pd ++ "/" ++ texBaseName tf ++ ".pdf"))], ?_, ?_⟩
          · rw [hshape]
            simp [List.append_assoc]
          · rw [bibRuns_append, hrest0]
            simp

/-- C3 counterexample: on a concrete first-pass failure whose stdout is
`UNIQUESTDOUT`, the compile fails with `latexFailed 1` whose exception
message does not contain the captured stdout (it is only written to the
error log), refuting the claim that the stdout is surfaced in the reported
error. -/
theorem compile_stdout_not_in_error_message :
    (compile_latex_safe (fun _ => .completed 1 "UNIQUESTDOUT" "") (.completed 0 "" "")
        false true true true "main.tex" "/papers/p" 120 3).1
      = .error (.latexFailed 1) ∧
    containsSub "UNIQUESTDOUT".data (compileErrMessage (.latexFailed 1)).data = false ∧
    Event.logError ("Output:\nUNIQUESTDOUT")
      ∈ (compile_latex_safe (fun _ => .completed 1 "UNIQUESTDOUT" "") (.completed 0 "" "")
          false true true true "main.tex" "/papers/p" 120 3).2 :=
  ⟨by decide, by decide, by decide⟩

/-- C3 witness: a concrete first-pass failure fails fast with
`latexFailed 1`. -/
theorem compile_fails_fast_witness :
    (compile_latex_safe (fun _ => ExecOutcome.completed 1 "UNIQUESTDOUT" "")
        (.completed 0 "" "") false true true true "main.tex" "/papers/p" 120 3).1
      = .error (.latexFailed 1) :=
  (compile_fails_fast_on_pass_failure (fun _ => ExecOutcome.completed 1 "UNIQUESTDOUT" "")
      (.completed 0 "" "") false true true true "main.tex" "/papers/p" 120 3 0 1
      "UNIQUESTDOUT" "" (by decide) (by decide)
      (fun j hj => absurd hj (by omega)) rfl (by decide)).1

/-- C4 witness: a concrete compile whose `bibtex` times out still matches a
compile whose `bibtex` succeeds, and runs `bibtex` once. -/
theorem compile_bibtex_once_best_effort_witness :
    ((compile_latex_safe (fun _ => ExecOutcome.completed 0 "" "") .timedOut
        true true true true "main.tex" "/p" 120 3).1
      = (compile_latex_safe (fun _ => ExecOutcome.completed 0 "" "")
          (.completed 0 "" "") true true true true "main.tex" "/p" 120 3).1) ∧
    bibRuns (compile_latex_safe (fun _ => ExecOutcome.completed 0 "" "") .timedOut
        true true true true "main.tex" "/p" 120 3).2
      = if 0 < 3 && outcomeOk ((fun _ => ExecOutcome.completed 0 "" "") 0) && true
        then 1 else 0 :=
  ⟨(compile_bibtex_once_best_effort (fun _ => ExecOutcome.completed 0 "" "")
      .timedOut (.completed 0 "" "") true true true true "main.tex" "/p" 120 3
      (by decide)).1,
   (compile_bibtex_once_best_effort (fun _ => ExecOutcome.completed 0 "" "")
      .timedOut (.completed 0 "" "") true true true true "main.tex" "/p" 120 3
      (by decide)).2.2.1⟩

/-- C5 witness: a concrete all-passes-zero compile with the PDF present
returns the artifact path. -/
theorem compile_pdf_postcondition_witness :
    (compile_latex_safe (fun _ => ExecOutcome.completed 0 "" "") (.completed 0 "" "")
        true true true true "main.tex" "/p" 120 3).1
      = .ok ("/p" ++ "/" ++ texBaseName "main.tex" ++ ".pdf") :=
  (compile_pdf_postcondition (fun _ => ExecOutcome.completed 0 "" "") (.completed 0 "" "")
      true true true "main.tex" "/p" 120 3 (by decide) (fun j hj => rfl)).2.1

end AIResearcher
